import Mathlib

/-!
Verification of the Complexity Estimation & Simulation Engine embedded from
`streamlit_app.py` (Algorithm Learning Hub).  The engine consists of the
growth-function library of the Order of Growth page, the theta-bound
construction of the Theta page, the Run Simulation handler of the Time
Complexity page, and the Estimate Complexity handler of the Complexity
Calculator page.  Presentation glue (charts, sliders, markdown) is not part
of the model; user-selected parameters enter as explicit arguments, and the
two `time.perf_counter()` readings enter through an explicit `clock`
argument so that timing and operation counting stay separated.
-/

set_option exponentiation.threshold 20000

namespace AlgoHub

/-- Complexity-class tags.  The first six carry the growth curves of the
`funcs` map on the Order of Growth page; `Cubic` carries the `n**3` curve
from the `mapping` on the Big-O page. -/
inductive ComplexityClass
  | Constant
  | Logarithmic
  | Linear
  | Linearithmic
  | Quadratic
  | Cubic
  | ExponentialBounded
  deriving DecidableEq

/-- The hard-coded clamp in `np.exp2(np.minimum(n, 20))`. -/
def expCap : ℝ := 20

/-- Growth-function library: the `funcs` map of the Order of Growth page
(`1`, `np.log2`, `n`, `n * np.log2 n`, `n**2`, `np.exp2(np.minimum(n, 20))`)
together with the Big-O page's `n**3`. -/
noncomputable def evaluate : ComplexityClass → ℝ → ℝ
  | .Constant, _ => 1
  | .Logarithmic, n => Real.logb 2 n
  | .Linear, n => n
  | .Linearithmic, n => n * Real.logb 2 n
  | .Quadratic, n => n ^ 2
  | .Cubic, n => n ^ 3
  | .ExponentialBounded, n => (2 : ℝ) ^ min n expCap

/-- The Estimate Complexity handler of the Complexity Calculator page: on
every click it shows `"Estimated Time Complexity: O(n²)"`, never inspecting
the pasted text. -/
def estimate (_codeBlock : String) : ComplexityClass :=
  ComplexityClass.Quadratic

/-- A single non-nested loop body, as in the page's own `O(n)` example. -/
def singleLoopBlock : String :=
  "for i in range(n):\n    pass"

/-- Failure conditions of the engine: the spec's taxonomy plus the Python
`ValueError` (math domain error) that `math.log2` raises on a nonpositive
argument. -/
inductive Condition
  | InvalidDomain
  | InvalidBoundOrdering
  | InvalidInputSize
  | AmbiguousStructure
  | MathDomainError
  deriving DecidableEq

/-- The fixed illustrative polynomial `f = n**2 + 2*n + 1` of the Theta
page. -/
def thetaTarget (n : ℚ) : ℚ := n ^ 2 + 2 * n + 1

/-- Lower envelope, upper envelope and target series, each a list of
`(inputSize, value)` samples. -/
structure BoundEnvelope where
  lower : List (ℚ × ℚ)
  upper : List (ℚ × ℚ)
  target : List (ℚ × ℚ)
  deriving DecidableEq

/-- Theta page bound construction: behind the `if c1 < c2` guard the page
builds the three series `c1 * n**2`, `c2 * n**2` and `f(n)` over the sample
points; the `else` branch shows only the error `"Ensure c₁ < c₂"` and builds
nothing.  The sample points are an argument here (the page hard-codes
`np.linspace(1, 50, 200)`). -/
def composeBounds (c1 c2 : ℚ) (domain : List ℚ) : Except Condition BoundEnvelope :=
  if c1 < c2 then
    .ok { lower := domain.map fun n => (n, c1 * n ^ 2)
          upper := domain.map fun n => (n, c2 * n ^ 2)
          target := domain.map fun n => (n, thetaTarget n) }
  else
    .error .InvalidBoundOrdering

/-- A successfully built envelope satisfies `lower ≤ target ≤ upper` at
every sampled point; a failed call satisfies nothing. -/
def envelopeHolds : Except Condition BoundEnvelope → Prop
  | .error _ => False
  | .ok env => ∀ p ∈ env.lower.zip (env.target.zip env.upper),
      p.1.2 ≤ p.2.1.2 ∧ p.2.1.2 ≤ p.2.2.2

/-- The sampled domain 10, 20, …, 100 used by the tight-bound demonstration. -/
def thetaDemoDomain : List ℚ := [10, 20, 30, 40, 50, 60, 70, 80, 90, 100]

/-- The four algorithm identities of the Time Complexity page multiselect. -/
inductive AlgorithmId
  | Linear
  | Binary
  | Bubble
  | Merge
  deriving DecidableEq

/-- One simulation outcome: the deterministic operation count and the
wall-clock difference of the two `perf_counter` readings. -/
structure SimulationResult where
  operationCount : ℕ
  elapsedTimeSeconds : ℚ
  deriving DecidableEq

/-- A `for`-loop over `l` whose body updates the accumulator `total` via
`f`; the second component counts how many times the body ran. -/
def runLoop (l : List ℕ) (f : ℕ → ℕ → ℕ) (p : ℕ × ℕ) : ℕ × ℕ :=
  l.foldl (fun q i => (f q.1 i, q.2 + 1)) p

/-- Linear branch, `for _ in range(size): total += 1`. -/
def linearRun (n : ℕ) : ℕ × ℕ :=
  runLoop (List.range n) (fun total _ => total + 1) (0, 0)

/-- Bubble branch, `for i in range(size): for j in range(size): total += i + j`;
the count is the number of executions of the innermost statement. -/
def bubbleRun (n : ℕ) : ℕ × ℕ :=
  (List.range n).foldl
    (fun q i => runLoop (List.range n) (fun total j => total + i + j) q) (0, 0)

/-- Binary branch, `val = size` then `while val > 1: val //= 2; total += 1`;
returns the final `total`, i.e. the number of halvings performed.  Lean's
`Int` division `/` is Euclidean and agrees with Python's floor division `//`
on the positive values the loop ever divides. -/
def binaryLoop (val : ℤ) (total : ℕ) : ℕ :=
  if h : 1 < val then binaryLoop (val / 2) (total + 1) else total
termination_by val.toNat
decreasing_by omega

/-- Fuel-indexed variant of `binaryLoop`, used to express that the while
loop halts on its own: `none` means the fuel ran out before the loop
finished. -/
def binaryLoopFuel : ℕ → ℤ → ℕ → Option ℕ
  | 0, _, _ => none
  | fuel + 1, val, total =>
    if 1 < val then binaryLoopFuel fuel (val / 2) (total + 1) else some total

/-- Iteration count of the Merge branch, `int(size * math.log2(size))`: for
a positive integer `n`, truncating `n * log2 n` yields
`⌊n · log₂ n⌋ = ⌊log₂ (n ^ n)⌋`, which is `Nat.log 2 (n ^ n)`
(`mergeIter_eq_floor` below proves this reading against `Real.logb`). -/
def mergeIter (n : ℕ) : ℕ := Nat.log 2 (n ^ n)

/-- Merge branch, `for _ in range(int(size * math.log2(size))): total += 1`. -/
def mergeRun (n : ℕ) : ℕ × ℕ :=
  runLoop (List.range (mergeIter n)) (fun total _ => total + 1) (0, 0)

/-- The Run Simulation handler of the Time Complexity page for one selected
algorithm.  `clock 0` and `clock 1` are the two `time.perf_counter()`
readings; the handler performs no validation of `size` (the page's slider
constrains it to 100…5000).  Python's `range(k)` is empty for `k ≤ 0`,
hence `Int.toNat`; `math.log2` raises a math domain error on a nonpositive
argument, which only the Merge branch can hit. -/
def simulate (clock : ℕ → ℚ) (alg : AlgorithmId) (size : ℤ) :
    Except Condition SimulationResult :=
  match alg with
  | .Linear =>
    .ok { operationCount := (linearRun size.toNat).2
          elapsedTimeSeconds := clock 1 - clock 0 }
  | .Binary =>
    .ok { operationCount := binaryLoop size 0
          elapsedTimeSeconds := clock 1 - clock 0 }
  | .Bubble =>
    .ok { operationCount := (bubbleRun size.toNat).2
          elapsedTimeSeconds := clock 1 - clock 0 }
  | .Merge =>
    if size ≤ 0 then .error .MathDomainError
    else
      .ok { operationCount := (mergeRun size.toNat).2
            elapsedTimeSeconds := clock 1 - clock 0 }

/-- A clock whose two readings are both zero, for concrete instantiations. -/
def zeroClock : ℕ → ℚ := fun _ => 0

/-! ### Loop-counting lemmas -/

theorem runLoop_snd (l : List ℕ) (f : ℕ → ℕ → ℕ) :
    ∀ p : ℕ × ℕ, (runLoop l f p).2 = p.2 + l.length := by
  induction l with
  | nil => intro p; rfl
  | cons a t ih =>
    intro p
    show (runLoop t f (f p.1 a, p.2 + 1)).2 = p.2 + (a :: t).length
    rw [ih]
    simp [List.length_cons]
    omega

theorem foldl_snd_const (k : ℕ) (F : ℕ × ℕ → ℕ → ℕ × ℕ)
    (hF : ∀ q i, (F q i).2 = q.2 + k) (l : List ℕ) :
    ∀ q : ℕ × ℕ, (l.foldl F q).2 = q.2 + l.length * k := by
  induction l with
  | nil => intro q; simp
  | cons a t ih =>
    intro q
    rw [List.foldl_cons, ih, hF]
    simp [List.length_cons]
    ring

theorem linearRun_snd (n : ℕ) : (linearRun n).2 = n := by
  rw [linearRun, runLoop_snd]
  simp

theorem bubbleRun_snd (n : ℕ) : (bubbleRun n).2 = n * n := by
  rw [bubbleRun, foldl_snd_const n _ (fun q i => by rw [runLoop_snd]; simp)]
  simp

theorem mergeRun_snd (n : ℕ) : (mergeRun n).2 = mergeIter n := by
  rw [mergeRun, runLoop_snd]
  simp

/-! ### The halving loop and `Nat.log` -/

theorem log2_div_add_one (m : ℕ) (h : 2 ≤ m) :
    Nat.log 2 (m / 2) + 1 = Nat.log 2 m := by
  have h1 := Nat.log_div_base 2 m
  have h2 : 0 < Nat.log 2 m := Nat.log_pos (by norm_num) h
  omega

theorem binaryLoop_eq_log :
    ∀ (fuel : ℕ) (val : ℤ), val.toNat ≤ fuel → ∀ total : ℕ,
      binaryLoop val total = total + Nat.log 2 val.toNat := by
  intro fuel
  induction fuel with
  | zero =>
    intro val hv total
    have hval : ¬ 1 < val := by omega
    rw [binaryLoop, dif_neg hval]
    have : val.toNat = 0 := by omega
    rw [this]
    simp
  | succ fuel ih =>
    intro val hv total
    by_cases hval : 1 < val
    · rw [binaryLoop, dif_pos hval]
      have hrec : (val / 2).toNat ≤ fuel := by omega
      have hdiv : (val / 2).toNat = val.toNat / 2 := by omega
      rw [ih (val / 2) hrec (total + 1), hdiv]
      have hlog := log2_div_add_one val.toNat (by omega)
      omega
    · rw [binaryLoop, dif_neg hval]
      have h2 : val.toNat < 2 := by omega
      rw [Nat.log_of_lt h2]
      omega

/-! ### `Nat.log` against real logarithms -/

theorem natLog_eq_floor_logb (m : ℕ) :
    Nat.log 2 m = ⌊Real.logb 2 (m : ℝ)⌋₊ := by
  have h1 : ⌊Real.logb ((2 : ℕ) : ℝ) (m : ℝ)⌋ = Int.log 2 ((m : ℕ) : ℝ) :=
    Real.floor_logb_natCast (by positivity)
  have h2 : Int.log 2 ((m : ℕ) : ℝ) = Nat.log 2 m := Int.log_natCast 2 m
  have h3 : ((2 : ℕ) : ℝ) = (2 : ℝ) := by norm_num
  rw [← Int.floor_toNat, ← h3, h1, h2, Int.toNat_natCast]

theorem mergeIter_eq_floor (n : ℕ) :
    mergeIter n = ⌊(n : ℝ) * Real.logb 2 (n : ℝ)⌋₊ := by
  have hcast : ((n ^ n : ℕ) : ℝ) = ((n : ℝ) ^ (n : ℕ)) := by push_cast; rfl
  have hpow : Real.logb 2 (((n ^ n : ℕ) : ℕ) : ℝ) = (n : ℝ) * Real.logb 2 (n : ℝ) := by
    rw [hcast, Real.logb_pow]
  rw [mergeIter, natLog_eq_floor_logb (n ^ n), hpow]

set_option maxRecDepth 4000 in
theorem mergeIter_1000 : mergeIter 1000 = 9965 := by
  have h1 : (2 : ℕ) ^ 9965 ≤ 1000 ^ 1000 := by norm_num
  have h2 : (1000 : ℕ) ^ 1000 < 2 ^ (9965 + 1) := by norm_num
  exact Nat.log_eq_of_pow_le_of_lt_pow h1 h2

set_option maxRecDepth 8000 in
theorem round_1000_logb_1000 : round ((1000 : ℝ) * Real.logb 2 1000) = 9966 := by
  have hlog2 : (0 : ℝ) < Real.log 2 := Real.log_pos (by norm_num)
  have hlow : (19931 : ℝ) * Real.log 2 ≤ 2000 * Real.log 1000 := by
    have hlowR : ((2 : ℝ) ^ (19931 : ℕ)) ≤ (1000 : ℝ) ^ (2000 : ℕ) := by
      exact_mod_cast (by norm_num : (2 : ℕ) ^ 19931 ≤ 1000 ^ 2000)
    have := Real.log_le_log (by positivity) hlowR
    rwa [Real.log_pow, Real.log_pow] at this
  have hhigh : (2000 : ℝ) * Real.log 1000 < 19933 * Real.log 2 := by
    have hhighR : ((1000 : ℝ) ^ (2000 : ℕ)) < (2 : ℝ) ^ (19933 : ℕ) := by
      exact_mod_cast (by norm_num : (1000 : ℕ) ^ 2000 < 2 ^ 19933)
    have := Real.log_lt_log (by positivity) hhighR
    rwa [Real.log_pow, Real.log_pow] at this
  have hb : Real.logb 2 1000 = Real.log 1000 / Real.log 2 := rfl
  have hL : (9965.5 : ℝ) ≤ 1000 * Real.logb 2 1000 := by
    rw [hb, mul_div_assoc', le_div_iff₀ hlog2]
    linarith
  have hU : (1000 : ℝ) * Real.logb 2 1000 < 9966.5 := by
    rw [hb, mul_div_assoc', div_lt_iff₀ hlog2]
    linarith
  rw [round_eq]
  have hfl : ⌊(1000 : ℝ) * Real.logb 2 1000 + 1 / 2⌋ = (9966 : ℤ) := by
    rw [Int.floor_eq_iff]
    constructor
    · push_cast
      linarith
    · push_cast
      linarith
  rw [hfl]

/-! ### Claims -/

/-- Claim C1: `estimate` returns the Quadratic classification for every
input code block, including the empty one — the same fixed class regardless
of the input. -/
theorem estimate_always_quadratic (codeBlock : String) :
    estimate codeBlock = ComplexityClass.Quadratic := rfl

/-- Claim C2 (violated by the code): the Estimate Complexity handler reports
Quadratic for a single non-nested loop body and for the empty block alike,
where the claim requires Linear and Constant respectively. -/
theorem estimate_stub_ignores_structure :
    estimate singleLoopBlock = ComplexityClass.Quadratic ∧
    estimate "" = ComplexityClass.Quadratic ∧
    ComplexityClass.Quadratic ≠ ComplexityClass.Linear ∧
    ComplexityClass.Quadratic ≠ ComplexityClass.Constant :=
  ⟨rfl, rfl, by decide, by decide⟩

/-- Claim C3, counterexample: at inputSize 1000 the Merge branch runs
`int(1000 * log2 1000) = 9965` iterations — `int` truncates — while the
claimed nearest-integer rounding gives 9966. -/
theorem merge_1000_truncated :
    (simulate zeroClock AlgorithmId.Merge 1000).map SimulationResult.operationCount
      = Except.ok 9965 ∧
    round ((1000 : ℝ) * Real.logb 2 1000) = 9966 ∧ (9965 : ℕ) ≠ 9966 := by
  refine ⟨?_, round_1000_logb_1000, by norm_num⟩
  norm_num [simulate, Except.map, mergeRun_snd]
  exact mergeIter_1000

/-- Claim C3 as amended: for every positive inputSize n the Merge
simulation's operationCount is the truncation `⌊n · log₂ n⌋` (9965 at
n = 1000), not the nearest-integer rounding. -/
theorem merge_opCount_floor (clock : ℕ → ℚ) (n : ℤ) (h : 1 ≤ n) :
    (simulate clock AlgorithmId.Merge n).map SimulationResult.operationCount
      = Except.ok ⌊(n : ℝ) * Real.logb 2 (n : ℝ)⌋₊ := by
  have hns : ¬ n ≤ 0 := by omega
  have h2 : ((n.toNat : ℕ) : ℝ) = (n : ℝ) := by
    exact_mod_cast Int.toNat_of_nonneg (by omega : (0 : ℤ) ≤ n)
  simp [simulate, hns, Except.map, mergeRun_snd]
  rw [mergeIter_eq_floor, h2]

/-- Witness for the amended C3 at inputSize 2. -/
theorem merge_opCount_floor_w :
    (simulate zeroClock AlgorithmId.Merge 2).map SimulationResult.operationCount
      = Except.ok ⌊((2 : ℤ) : ℝ) * Real.logb 2 ((2 : ℤ) : ℝ)⌋₊ :=
  merge_opCount_floor zeroClock 2 (by norm_num)

/-- Claim C4: for every positive inputSize n the Binary simulation's
operationCount is the number of floor-halvings of n down to 1, which is
`⌊log₂ n⌋`. -/
theorem binary_opCount_floor_log (clock : ℕ → ℚ) (n : ℤ) (h : 1 ≤ n) :
    (simulate clock AlgorithmId.Binary n).map SimulationResult.operationCount
      = Except.ok ⌊Real.logb 2 (n : ℝ)⌋₊ := by
  have h1 : binaryLoop n 0 = 0 + Nat.log 2 n.toNat :=
    binaryLoop_eq_log n.toNat n le_rfl 0
  have h2 : ((n.toNat : ℕ) : ℝ) = (n : ℝ) := by
    exact_mod_cast Int.toNat_of_nonneg (by omega : (0 : ℤ) ≤ n)
  simp [simulate, Except.map]
  rw [h1, Nat.zero_add, natLog_eq_floor_logb, h2]

/-- Witness for C4 at inputSize 1024: ten halvings. -/
theorem binary_opCount_floor_log_w :
    (simulate zeroClock AlgorithmId.Binary 1024).map SimulationResult.operationCount
      = Except.ok 10 := by
  rw [binary_opCount_floor_log zeroClock 1024 (by norm_num)]
  have h1024 : ((1024 : ℤ) : ℝ) = (2 : ℝ) ^ (10 : ℕ) := by norm_num
  rw [h1024, Real.logb_pow, Real.logb_self_eq_one (by norm_num), mul_one]
  norm_num

/-- Claim C5: operationCount is a deterministic function of the algorithm
identity and the inputSize: runs under different clocks agree on it even
though the elapsed time differs, and under every clock simulate(Bubble, 500)
counts 250000 = 500² operations. -/
theorem simulate_count_deterministic :
    (∀ (clock clock' : ℕ → ℚ) (alg : AlgorithmId) (size : ℤ),
      (simulate clock alg size).map SimulationResult.operationCount
        = (simulate clock' alg size).map SimulationResult.operationCount) ∧
    (∀ clock : ℕ → ℚ,
      (simulate clock AlgorithmId.Bubble 500).map SimulationResult.operationCount
        = Except.ok 250000) := by
  constructor
  · intro clock clock' alg size
    cases alg with
    | Linear => rfl
    | Binary => rfl
    | Bubble => rfl
    | Merge => by_cases hs : size ≤ 0 <;> simp [simulate, hs, Except.map]
  · intro clock
    norm_num [simulate, Except.map, bubbleRun_snd]
    decide

/-- Claim C6, counterexample: simulate(Linear, 0) succeeds with
operationCount 0 instead of failing with InvalidInputSize. -/
theorem linear_zero_not_invalid :
    simulate zeroClock AlgorithmId.Linear 0 = Except.ok ⟨0, 0⟩ ∧
    (Except.ok ⟨0, 0⟩ : Except Condition SimulationResult)
      ≠ Except.error Condition.InvalidInputSize := by
  constructor
  · simp [simulate, zeroClock, linearRun, runLoop]
  · exact fun hc => Except.noConfusion hc

/-- Claim C6 as amended: the handler performs no input-size validation; for
every inputSize ≤ 0 the Linear simulation returns a successful result with
operationCount 0 (the Python range is empty) rather than an InvalidInputSize
failure. -/
theorem linear_nonpositive_ok (clock : ℕ → ℚ) (size : ℤ) (h : size ≤ 0) :
    simulate clock AlgorithmId.Linear size
      = Except.ok ⟨0, clock 1 - clock 0⟩ := by
  have h0 : size.toNat = 0 := by omega
  simp [simulate, h0, linearRun, runLoop]

/-- Witness for the amended C6 at inputSize −5. -/
theorem linear_nonpositive_ok_w :
    simulate zeroClock AlgorithmId.Linear (-5)
      = Except.ok ⟨0, zeroClock 1 - zeroClock 0⟩ :=
  linear_nonpositive_ok zeroClock (-5) (by norm_num)

/-- Claim C7: with c₁ = 0.5 and c₂ = 2.0 over the sampled domain
10, 20, …, 100, the envelope inequality 0.5·n² ≤ n² + 2n + 1 ≤ 2·n² holds
at every one of the ten sampled points. -/
theorem theta_envelope_demo :
    envelopeHolds (composeBounds (1/2) 2 thetaDemoDomain) ∧
    (composeBounds (1/2) 2 thetaDemoDomain).map (fun e => e.target.length)
      = Except.ok 10 := by
  have hc : ((1 : ℚ)/2) < 2 := by norm_num
  constructor
  · simp only [composeBounds, if_pos hc, envelopeHolds, thetaDemoDomain, thetaTarget]
    norm_num
  · simp only [composeBounds, if_pos hc, Except.map, thetaDemoDomain]
    norm_num

/-- Claim C8: whenever c₁ ≥ c₂ the bound composer reports
InvalidBoundOrdering and produces no envelope series at all. -/
theorem composeBounds_bad_order (c1 c2 : ℚ) (domain : List ℚ) (h : c2 ≤ c1) :
    composeBounds c1 c2 domain = Except.error Condition.InvalidBoundOrdering := by
  simp only [composeBounds, if_neg (not_lt.mpr h)]

/-- Witness for C8 with the swapped constants 2.0 and 0.5. -/
theorem composeBounds_bad_order_w :
    composeBounds 2 (1/2) [10] = Except.error Condition.InvalidBoundOrdering :=
  composeBounds_bad_order 2 (1/2) [10] (by norm_num)

/-- Claim C9: every growth function of the library is monotonically
non-decreasing on its domain n ≥ 1, the clamped exponential included. -/
theorem evaluate_monotone (c : ComplexityClass) (n m : ℝ)
    (h1 : 1 ≤ n) (h2 : n ≤ m) : evaluate c n ≤ evaluate c m := by
  have hn0 : (0 : ℝ) < n := by linarith
  cases c with
  | Constant => exact le_refl 1
  | Logarithmic => exact Real.logb_le_logb_of_le (by norm_num) hn0 h2
  | Linear => exact h2
  | Linearithmic =>
    have hl : 0 ≤ Real.logb 2 n := Real.logb_nonneg (by norm_num) h1
    exact mul_le_mul h2 (Real.logb_le_logb_of_le (by norm_num) hn0 h2) hl
      (by linarith)
  | Quadratic => exact pow_le_pow_left₀ hn0.le h2 2
  | Cubic => exact pow_le_pow_left₀ hn0.le h2 3
  | ExponentialBounded =>
    exact Real.rpow_le_rpow_of_exponent_le (by norm_num) (min_le_min h2 le_rfl)

/-- Witness for C9 on the Linear class at 1 ≤ 2. -/
theorem evaluate_monotone_w :
    evaluate ComplexityClass.Linear 1 ≤ evaluate ComplexityClass.Linear 2 :=
  evaluate_monotone ComplexityClass.Linear 1 2 (by norm_num) (by norm_num)

/-- Claim C10: the Binary halving loop terminates on its own for every
starting value: any fuel bound exceeding the start value lets the
fuel-indexed loop finish, agreeing with the unbounded loop. -/
theorem binary_halving_terminates (fuel : ℕ) (val : ℤ) (total : ℕ)
    (h : val.toNat < fuel) :
    binaryLoopFuel fuel val total = some (binaryLoop val total) := by
  induction fuel generalizing val total with
  | zero => omega
  | succ fuel ih =>
    show (if 1 < val then binaryLoopFuel fuel (val / 2) (total + 1)
          else some total) = some (binaryLoop val total)
    by_cases hval : 1 < val
    · rw [if_pos hval, ih (val / 2) (total + 1) (by omega)]
      conv_rhs => rw [binaryLoop]
      rw [dif_pos hval]
    · rw [if_neg hval]
      conv_rhs => rw [binaryLoop]
      rw [dif_neg hval]

/-- Witness for C10: start value 5, fuel 6. -/
theorem binary_halving_terminates_w :
    binaryLoopFuel 6 5 0 = some (binaryLoop 5 0) :=
  binary_halving_terminates 6 5 0 (by norm_num)
